import Mathlib

/-!
Verification of LocalTopSH's Command Guard and Approval Core.

The development shallowly embeds the TypeScript sources:
  * `src/approvals/index.ts` (command classifier, pending-approval store),
  * `src/tools/files.ts`     (path classifier: read/write guards, search guard),
  * `rate-limiter.ts`        (safe send with retries, active-user limiter),
  * `config.ts`              (rate-limit and concurrency constants).

JavaScript regular expressions are embedded by a small executable matcher
(`reTest`) over an abstract syntax for the feature subset the sources use
(literals, classes, dot, alternation, star, word boundaries, anchors, the
`i` flag).  `reTest` decides whether a match exists anywhere in the string,
which is exactly what `RegExp.prototype.test` reports.
-/

/-- Characters that JavaScript's `.` does not match (line terminators). -/
def jsDotChar (c : Char) : Bool :=
  !(c == '\n' || c == '\r' || c == Char.ofNat 0x2028 || c == Char.ofNat 0x2029)

/-- Word characters for `\b` and `\w` (JS: `[A-Za-z0-9_]`). -/
def isWordChar (c : Char) : Bool :=
  ('a' ≤ c && c ≤ 'z') || ('A' ≤ c && c ≤ 'Z') || ('0' ≤ c && c ≤ '9') || c == '_'

/-- Abstract syntax for the regular-expression subset used by the sources. -/
inductive RE where
  | eps
  | chr (c : Char)
  | cls (ranges : List (Char × Char))
  | dot
  | bos
  | eos
  | wb
  | cat (a b : RE)
  | alt (a b : RE)
  | star (a : RE)
deriving Repr

/-- Size of a regex tree, used to compute a sufficient fuel bound. -/
def reSize : RE → Nat
  | .eps => 1
  | .chr _ => 1
  | .cls _ => 1
  | .dot => 1
  | .bos => 1
  | .eos => 1
  | .wb => 1
  | .cat a b => reSize a + reSize b + 1
  | .alt a b => reSize a + reSize b + 1
  | .star a => reSize a + 1

/-- Literal character match, honouring the `i` flag by case folding. -/
def cmatchChr (ci : Bool) (p c : Char) : Bool :=
  if ci then p.toLower == c.toLower else p == c

/-- Character-class membership, honouring the `i` flag. -/
def inRanges (ci : Bool) (rs : List (Char × Char)) (c : Char) : Bool :=
  rs.any (fun r => r.1 ≤ c && c ≤ r.2) ||
    (ci && (rs.any (fun r => r.1 ≤ c.toLower && c.toLower ≤ r.2) ||
            rs.any (fun r => r.1 ≤ c.toUpper && c.toUpper ≤ r.2)))

def isWordOpt : Option Char → Bool
  | none => false
  | some c => isWordChar c

def isWordHead : List Char → Bool
  | [] => false
  | c :: _ => isWordChar c

/-- Continuation-passing matcher.  `prev` is the character just before the
current position (for `\b` and `^`); `k` receives the updated context on
success.  Fuel strictly decreases on every call, and `reFuel` below supplies
enough of it for any star whose body consumes at least one character. -/
def matchR (ci : Bool) :
    Nat → RE → Option Char → List Char → (Option Char → List Char → Bool) → Bool
  | 0, _, _, _, _ => false
  | _ + 1, .eps, prev, l, k => k prev l
  | _ + 1, .chr c, _, l, k =>
    match l with
    | [] => false
    | x :: xs => cmatchChr ci c x && k (some x) xs
  | _ + 1, .cls rs, _, l, k =>
    match l with
    | [] => false
    | x :: xs => inRanges ci rs x && k (some x) xs
  | _ + 1, .dot, _, l, k =>
    match l with
    | [] => false
    | x :: xs => jsDotChar x && k (some x) xs
  | _ + 1, .bos, prev, l, k => prev.isNone && k prev l
  | _ + 1, .eos, prev, l, k => l.isEmpty && k prev l
  | _ + 1, .wb, prev, l, k => (isWordOpt prev != isWordHead l) && k prev l
  | fuel + 1, .cat a b, prev, l, k =>
    matchR ci fuel a prev l (fun p' l' => matchR ci fuel b p' l' k)
  | fuel + 1, .alt a b, prev, l, k =>
    matchR ci fuel a prev l k || matchR ci fuel b prev l k
  | fuel + 1, .star a, prev, l, k =>
    k prev l || matchR ci fuel a prev l (fun p' l' => matchR ci fuel (.star a) p' l' k)

/-- Fuel sufficient to explore every backtracking branch of `re` on `l`. -/
def reFuel (re : RE) (l : List Char) : Nat :=
  (reSize re + 2) * (l.length + 2)

/-- Try a match starting at every position of the input. -/
def reTestFrom (ci : Bool) (re : RE) : Option Char → List Char → Bool
  | prev, l =>
    matchR ci (reFuel re l) re prev l (fun _ _ => true) ||
      match l with
      | [] => false
      | c :: rest => reTestFrom ci re (some c) rest

/-- Embedding of `RegExp.prototype.test`: does `re` match anywhere in `s`? -/
def reTest (ci : Bool) (re : RE) (s : String) : Bool :=
  reTestFrom ci re none s.data

/-! Helper constructors mirroring the concrete syntax of the source regexes. -/

/-- Concatenation of a list of regexes. -/
def rseq (rs : List RE) : RE := rs.foldr RE.cat RE.eps

/-- A literal string. -/
def rlit (s : String) : RE := rseq (s.data.map RE.chr)

/-- Embedding of `r?` (zero or one). -/
def ropt (r : RE) : RE := RE.alt r RE.eps

/-- Embedding of `r+` (one or more). -/
def rplus (r : RE) : RE := RE.cat r (RE.star r)

/-- A class listing individual characters, e.g. `[rf]`. -/
def rcls (cs : List Char) : RE := RE.cls (cs.map (fun c => (c, c)))

/-- A single class range, e.g. `[a-z]`. -/
def rrange (lo hi : Char) : RE := RE.cls [(lo, hi)]

/-- Embedding of `\s` (whitespace class; the code points the source commands exercise). -/
def sCls : RE := RE.cls [(' ', ' '), ('\t', '\t'), ('\n', '\n'), ('\r', '\r'),
  (Char.ofNat 11, Char.ofNat 12)]

/-- Embedding of `\w` (word-character class). -/
def wCls : RE := RE.cls [('a', 'z'), ('A', 'Z'), ('0', '9'), ('_', '_')]

/-- Embedding of `\s+`. -/
def sPlus : RE := rplus sCls

/-- Embedding of `\s*`. -/
def sStar : RE := RE.star sCls

/-- Embedding of `.*`. -/
def dotStar : RE := RE.star RE.dot

/-- Left brace character (code point 123). -/
def lbraceChar : Char := Char.ofNat 123

/-- Right brace character (code point 125). -/
def rbraceChar : Char := Char.ofNat 125

/-! ## Command classifier (`src/approvals/index.ts`) -/

/-- One entry of `DANGEROUS_PATTERNS`: `{ pattern: RegExp; reason: string }`.
`ci` records the regex's `i` flag. -/
structure DPat where
  pattern : RE
  ci : Bool
  reason : String

/-- The `DANGEROUS_PATTERNS` list, transliterated entry by entry and in the
declared order from `src/approvals/index.ts`. -/
def DANGEROUS_PATTERNS : List DPat := [
  -- Destructive file operations
  ⟨rseq [RE.wb, rlit "rm", sPlus, RE.star (rseq [RE.chr '-', rplus (rcls ['r', 'f']), sPlus]),
      rcls ['/', '~']], false, "Recursive delete from root/home"⟩,
  ⟨rseq [RE.wb, rlit "rm", sPlus, RE.chr '-', RE.star (rcls ['r', 'f']), sStar, RE.chr '*'],
      false, "Wildcard delete"⟩,
  ⟨rseq [RE.wb, rlit "rm", sPlus, rlit "-rf", RE.wb], false, "Force recursive delete"⟩,
  ⟨rseq [RE.wb, rlit "rmdir", sPlus, rlit "--ignore-fail-on-non-empty"], false,
      "Force directory removal"⟩,
  -- Privilege escalation
  ⟨rseq [RE.wb, rlit "sudo", RE.wb], false, "Root privileges"⟩,
  ⟨rseq [RE.wb, rlit "su", sPlus, ropt (RE.chr '-'), sStar, RE.eos], false, "Switch to root"⟩,
  ⟨rseq [RE.wb, rlit "chown", sPlus, rlit "-R", sPlus, rlit "root"], false,
      "Change ownership to root"⟩,
  -- Dangerous permissions
  ⟨rseq [RE.wb, rlit "chmod", sPlus, ropt (rseq [rlit "-R", sPlus]), RE.star (rrange '0' '7'),
      RE.chr '7', rrange '0' '7', rrange '0' '7', RE.wb], false, "World-writable permissions"⟩,
  ⟨rseq [RE.wb, rlit "chmod", sPlus, ropt (rseq [rlit "-R", sPlus]), rlit "777", RE.wb], false,
      "Full permissions to everyone"⟩,
  ⟨rseq [RE.wb, rlit "chmod", sPlus, RE.chr '+', RE.chr 's', RE.wb], false, "Set SUID/SGID bit"⟩,
  -- System modification
  ⟨rseq [RE.wb, rlit "mkfs", RE.wb], false, "Format filesystem"⟩,
  ⟨rseq [RE.wb, rlit "dd", sPlus, dotStar, rlit "of=/dev/"], false, "Direct disk write"⟩,
  ⟨rseq [RE.chr '>', sStar, rlit "/dev/", rcls ['s', 'h'], RE.chr 'd', rrange 'a' 'z'], false,
      "Redirect to disk device"⟩,
  ⟨rseq [RE.wb, rlit "fdisk", RE.wb], false, "Partition manipulation"⟩,
  ⟨rseq [RE.wb, rlit "parted", RE.wb], false, "Partition manipulation"⟩,
  -- Network/Security
  ⟨rseq [RE.wb, rlit "iptables", sPlus, RE.alt (rlit "-F") (rlit "--flush")], false,
      "Flush firewall rules"⟩,
  ⟨rseq [RE.wb, rlit "ufw", sPlus, rlit "disable"], false, "Disable firewall"⟩,
  ⟨rseq [RE.wb, rlit "systemctl", sPlus, RE.alt (rlit "stop") (rlit "disable"), sPlus,
      RE.alt (rlit "ssh") (RE.alt (rlit "firewall") (rlit "ufw"))], false,
      "Stop security service"⟩,
  -- Package management (can break system)
  ⟨rseq [RE.wb, rlit "apt", ropt (rlit "-get"), sPlus, RE.alt (rlit "remove") (rlit "purge"),
      sPlus, dotStar, rlit "-y"], false, "Auto-confirm package removal"⟩,
  ⟨rseq [RE.wb, rlit "yum", sPlus, rlit "remove", sPlus, dotStar, rlit "-y"], false,
      "Auto-confirm package removal"⟩,
  ⟨rseq [RE.wb, rlit "pip", sPlus, rlit "uninstall", sPlus, dotStar, rlit "-y"], false,
      "Auto-confirm pip uninstall"⟩,
  -- Data destruction
  ⟨rseq [RE.wb, rlit "truncate", sPlus, rlit "-s", sStar, RE.chr '0'], false,
      "Truncate file to zero"⟩,
  ⟨rseq [RE.chr '>', sStar, rlit "/etc/"], false, "Overwrite system config"⟩,
  ⟨rseq [RE.wb, rlit "shred", RE.wb], false, "Secure file deletion"⟩,
  -- Process/System control
  ⟨rseq [RE.wb, rlit "kill", sPlus, rlit "-9", sPlus, rlit "-1", RE.wb], false,
      "Kill all processes"⟩,
  ⟨rseq [RE.wb, rlit "killall", sPlus, rlit "-9"], false, "Force kill processes"⟩,
  ⟨rseq [RE.wb, rlit "shutdown", RE.wb], false, "System shutdown"⟩,
  ⟨rseq [RE.wb, rlit "reboot", RE.wb], false, "System reboot"⟩,
  ⟨rseq [RE.wb, rlit "init", sPlus, rcls ['0', '6'], RE.wb], false, "System halt/reboot"⟩,
  -- Dangerous downloads/execution
  ⟨rseq [rlit "curl", dotStar, RE.chr '|', sStar, ropt (rlit "ba"), rlit "sh"], false,
      "Pipe URL to shell"⟩,
  ⟨rseq [rlit "wget", dotStar, RE.chr '|', sStar, ropt (rlit "ba"), rlit "sh"], false,
      "Pipe URL to shell"⟩,
  ⟨rseq [RE.wb, rlit "eval", sPlus, ropt (RE.chr '"'), RE.chr '$', RE.chr '(', rlit "curl"],
      false, "Eval remote code"⟩,
  -- Git dangerous operations
  ⟨rseq [RE.wb, rlit "git", sPlus, rlit "push", sPlus, dotStar, rlit "--force"], false,
      "Force push (rewrites history)"⟩,
  ⟨rseq [RE.wb, rlit "git", sPlus, rlit "reset", sPlus, rlit "--hard", sPlus, rlit "HEAD~"],
      false, "Hard reset (lose commits)"⟩,
  ⟨rseq [RE.wb, rlit "git", sPlus, rlit "clean", sPlus, rlit "-fd"], false,
      "Force clean untracked files"⟩,
  -- Database
  ⟨rseq [RE.wb, rlit "DROP", sPlus, RE.alt (rlit "DATABASE") (rlit "TABLE"), RE.wb], true,
      "Drop database/table"⟩,
  ⟨rseq [RE.wb, rlit "TRUNCATE", sPlus, rlit "TABLE", RE.wb], true, "Truncate table"⟩,
  ⟨rseq [RE.wb, rlit "DELETE", sPlus, rlit "FROM", sPlus, rplus wCls, sStar, ropt (RE.chr ';'),
      sStar, RE.eos], true, "Delete all rows (no WHERE)"⟩,
  -- Environment
  ⟨rseq [RE.wb, rlit "export", sPlus,
      RE.alt (rlit "PATH") (RE.alt (rlit "LD_PRELOAD") (rlit "LD_LIBRARY_PATH")), RE.chr '='],
      false, "Modify critical env var"⟩,
  ⟨rseq [RE.wb, rlit "unset", sPlus, RE.alt (rlit "PATH") (rlit "HOME"), RE.wb], false,
      "Unset critical env var"⟩,
  -- Fork bomb / resource exhaustion
  ⟨rseq [RE.chr ':', RE.chr '(', RE.chr ')', sStar, RE.chr lbraceChar, sStar, RE.chr ':',
      RE.chr '|', RE.chr ':', RE.chr '&', sStar, RE.chr rbraceChar], false, "Fork bomb"⟩,
  ⟨rseq [rlit "while", sPlus, rlit "true", dotStar, rlit "do", dotStar, rlit "done"], false,
      "Infinite loop"⟩
]

/-- Result record of `checkCommand`: `{ dangerous: boolean; reason?: string }`. -/
structure CheckResult where
  dangerous : Bool
  reason : Option String
deriving Repr, DecidableEq

/-- Transliteration of `checkCommand` from `src/approvals/index.ts`: the first matching entry of
`DANGEROUS_PATTERNS`, in declared order, supplies the reported reason. -/
def checkCommand (command : String) : CheckResult :=
  match DANGEROUS_PATTERNS.find? (fun p => reTest p.ci p.pattern command) with
  | some p => ⟨true, some p.reason⟩
  | none => ⟨false, none⟩


/-! ## Full command classifier with forbidden patterns

The repository's deployed classifier also carries a forbidden (secret
exfiltration) pattern list that runs before the dangerous list; its test
harness exercises it (`checkCommand(cmd, 'group').blocked`), but the list
itself is not part of the checked-in `src/approvals/index.ts`, which only
contains `DANGEROUS_PATTERNS`.  The forbidden list is therefore modelled from
the specification. -/

/-- A command decision: `Allow | Forbidden{reason} | Dangerous{reason}`. -/
inductive CommandDecision where
  | allow
  | forbidden (reason : String)
  | dangerous (reason : String)
deriving Repr, DecidableEq

/-- Modelled from the spec: the ordered forbidden (secret-exfiltration)
pattern list, which is missing from `src/approvals/index.ts` (only the
dangerous list is checked in; the security test exercises the full
classifier).  One entry per class enumerated in spec section 3: reads of
`/run/secrets`, `/proc/*/environ` and `.ssh`; environment-dumping
interpreter one-liners; standalone `env`/`printenv`/`export`/`set`;
`$VARNAME` echoes of known secret variables; encoding tools re-encoding
stdin; HTTP fetches of internal service hostnames; known-malicious package
runner invocations.  Reasons are the phrases of the spec's scenario table. -/
def FORBIDDEN_PATTERNS : List DPat := [
  ⟨RE.alt (rlit "/run/secrets")
      (RE.alt (rseq [rlit "/proc/", RE.star wCls, rlit "/environ"]) (rlit "/.ssh")), false,
      "Secret path read"⟩,
  ⟨rseq [RE.alt (rlit "python") (rlit "node"), dotStar, RE.chr '-', rcls ['c', 'e', 'p'],
      dotStar, RE.alt (rlit "environ") (RE.alt (rlit "process.env") (rlit "/run/secrets"))],
      false, "Environment dump via interpreter"⟩,
  ⟨rseq [RE.bos, sStar,
      RE.alt (rlit "printenv") (RE.alt (rlit "env") (RE.alt (rlit "export") (rlit "set"))),
      sStar, RE.eos], false, "Environment inspection"⟩,
  ⟨rseq [rlit "echo", sPlus, RE.chr '$', ropt (RE.chr lbraceChar),
      RE.alt (rlit "TELEGRAM_TOKEN") (rlit "API_KEY")], false, "Secret variable echo"⟩,
  ⟨RE.alt
      (rseq [RE.chr '|', sStar,
        RE.alt (rlit "base64") (RE.alt (rlit "xxd") (RE.alt (rlit "hexdump")
          (RE.alt (rlit "od") (rseq [rlit "openssl", sPlus, rlit "enc"]))))])
      (rseq [RE.alt (rlit "base64") (RE.alt (rlit "xxd") (RE.alt (rlit "hexdump") (rlit "od"))),
        sStar, RE.chr '<']), false, "Encoding pipeline for exfiltration"⟩,
  ⟨rseq [RE.alt (rlit "curl") (rlit "wget"), dotStar,
      RE.alt (rlit "proxy:") (RE.alt (rlit "//proxy") (rlit "//core"))], false,
      "Internal service contact"⟩,
  ⟨rseq [RE.wb, rlit "npx", sPlus,
      RE.alt (rlit "super-test-json") (RE.alt (rlit "env-dump")
        (RE.alt (rlit "debug-tool") (rlit "diag-check")))], false,
      "Malicious package runner"⟩
]

/-- Modelled from the spec: `classify(command)` of spec section 4.1 - the
forbidden list is evaluated first in declared order, then the checked-in
`DANGEROUS_PATTERNS`, and otherwise the command is allowed.  The dangerous
pass is exactly `checkCommand` from `src/approvals/index.ts`. -/
def classifyCommand (command : String) : CommandDecision :=
  match FORBIDDEN_PATTERNS.find? (fun p => reTest p.ci p.pattern command) with
  | some p => .forbidden p.reason
  | none =>
    match checkCommand command with
    | ⟨true, some r⟩ => .dangerous r
    | _ => .allow

/-- Claim C1: every secret-exfiltration scenario command of the spec -
`cat /run/secrets/telegram_token`; standalone `env`, `printenv`, `export`
and `set`; `curl http://proxy:3200/health`; `cat f | base64` - is classified
Forbidden with a secret-exfiltration reason by the full command classifier;
none of them is Allow or merely Dangerous. -/
theorem classifyCommand_secret_exfiltration_forbidden :
    classifyCommand "cat /run/secrets/telegram_token" = .forbidden "Secret path read" ∧
    classifyCommand "env" = .forbidden "Environment inspection" ∧
    classifyCommand "printenv" = .forbidden "Environment inspection" ∧
    classifyCommand "export" = .forbidden "Environment inspection" ∧
    classifyCommand "set" = .forbidden "Environment inspection" ∧
    classifyCommand "curl http://proxy:3200/health" = .forbidden "Internal service contact" ∧
    classifyCommand "cat f | base64" = .forbidden "Encoding pipeline for exfiltration" :=
  ⟨rfl, rfl, rfl, rfl, rfl, rfl, rfl⟩

/-- Claim C3 (counterexample): on `rm -rf /tmp/cache` the classifier does not
report "Force recursive delete"; the first matching entry of
`DANGEROUS_PATTERNS` in declared order is `/\brm\s+(-[rf]+\s+)*[\/~]/`, whose
reason is "Recursive delete from root/home". -/
theorem checkCommand_rm_rf_tmp_cache_reason_not_force :
    checkCommand "rm -rf /tmp/cache" ≠ ⟨true, some "Force recursive delete"⟩ := by
  decide

/-- Claim C3 (amended): on `rm -rf /tmp/cache` the classifier returns
Dangerous with reason "Recursive delete from root/home", the reason attached
to the first matching entry of the dangerous pattern list in declared order
(the `rm -rf` string also matches the root/home rule because of the `[\/~]`
alternative, and that rule is declared first). -/
theorem checkCommand_rm_rf_tmp_cache_first_match :
    checkCommand "rm -rf /tmp/cache" = ⟨true, some "Recursive delete from root/home"⟩ ∧
    classifyCommand "rm -rf /tmp/cache" = .dangerous "Recursive delete from root/home" :=
  ⟨rfl, rfl⟩

/-- Claim C9: each permitted command of the spec's scenario table - `ls -la`,
`pwd`, `echo hello`, `python3 -c "print(1+1)"`, `curl https://google.com` -
matches no dangerous rule (`checkCommand` reports not dangerous) and no
forbidden rule (the full classifier returns Allow). -/
theorem permitted_commands_allowed :
    checkCommand "ls -la" = ⟨false, none⟩ ∧
    checkCommand "pwd" = ⟨false, none⟩ ∧
    checkCommand "echo hello" = ⟨false, none⟩ ∧
    checkCommand "python3 -c \"print(1+1)\"" = ⟨false, none⟩ ∧
    checkCommand "curl https://google.com" = ⟨false, none⟩ ∧
    classifyCommand "ls -la" = .allow ∧
    classifyCommand "pwd" = .allow ∧
    classifyCommand "echo hello" = .allow ∧
    classifyCommand "python3 -c \"print(1+1)\"" = .allow ∧
    classifyCommand "curl https://google.com" = .allow :=
  ⟨rfl, rfl, rfl, rfl, rfl, rfl, rfl, rfl, rfl, rfl⟩

/-! ## Pending-approval store (`src/approvals/index.ts`) -/

/-- The `PendingCommand` record. -/
structure PendingCommand where
  id : String
  sessionId : String
  chatId : Int
  command : String
  cwd : String
  reason : String
  createdAt : Nat
deriving Repr, DecidableEq

/-- The in-memory `Map<string, PendingCommand>`, embedded as an association
list with unique keys (insertion replaces an existing binding). -/
abbrev Store := List (String × PendingCommand)

/-- Embedding of `Map.get`. -/
def mapGet (m : Store) (k : String) : Option PendingCommand :=
  (m.find? (fun e => e.1 == k)).map (fun e => e.2)

/-- Embedding of `Map.set`: replace an existing binding for the key, else append. -/
def mapSet (m : Store) (k : String) (v : PendingCommand) : Store :=
  match m with
  | [] => [(k, v)]
  | e :: rest => if e.1 == k then (k, v) :: rest else e :: mapSet rest k v

/-- Embedding of `Map.delete`. -/
def mapDelete (m : Store) (k : String) : Store :=
  m.filter (fun e => !(e.1 == k))

/-- The constant `COMMAND_TIMEOUT = 5 * 60 * 1000` milliseconds. -/
def COMMAND_TIMEOUT : Nat := 5 * 60 * 1000

/-- Transliteration of `storePendingCommand`: insert a record whose id is built from the current
time and a random suffix, with `createdAt` the current time.  `now` and
`rand` stand for `Date.now()` and the `Math.random()` suffix. -/
def storePendingCommand (m : Store) (sessionId : String) (chatId : Int)
    (command : String) (cwd : String) (reason : String) (now : Nat) (rand : String) :
    String × Store :=
  let id := "cmd_" ++ toString now ++ "_" ++ rand
  (id, mapSet m id ⟨id, sessionId, chatId, command, cwd, reason, now⟩)

/-- The `setTimeout(() => pendingCommands.delete(id), COMMAND_TIMEOUT)`
scheduled at insertion, modelled as all timers due by time `t` having fired:
only records younger than `COMMAND_TIMEOUT` remain. -/
def evictExpired (m : Store) (t : Nat) : Store :=
  m.filter (fun e => t < e.2.createdAt + COMMAND_TIMEOUT)

/-- Transliteration of `consumePendingCommand`: get the record by id and remove it. -/
def consumePendingCommand (m : Store) (id : String) : Option PendingCommand × Store :=
  match mapGet m id with
  | some cmd => (some cmd, mapDelete m id)
  | none => (none, m)

theorem mapGet_eq_none_of_no_key (m : Store) (id : String)
    (h : ∀ e ∈ m, ¬(e.1 = id)) : mapGet m id = none := by
  induction m with
  | nil => rfl
  | cons e rest ih =>
    have he : (e.1 == id) = false := by
      simpa using h e (List.mem_cons_self e rest)
    simp only [mapGet, List.find?, he]
    exact ih (fun e' he' => h e' (List.mem_cons_of_mem e he'))

theorem mapGet_mapDelete (m : Store) (id : String) :
    mapGet (mapDelete m id) id = none := by
  apply mapGet_eq_none_of_no_key
  intro e he
  have hp := (List.mem_filter.mp he).2
  simpa using hp

theorem consume_of_mapGet_none (m : Store) (id : String) (h : mapGet m id = none) :
    (consumePendingCommand m id).1 = none := by
  simp [consumePendingCommand, h]

theorem evictExpired_cons (e : String × PendingCommand) (rest : Store) (t : Nat) :
    evictExpired (e :: rest) t =
      if t < e.2.createdAt + COMMAND_TIMEOUT then e :: evictExpired rest t
      else evictExpired rest t := by
  simp only [evictExpired, List.filter_cons]
  split
  · next hcond => rw [if_pos (by simpa using hcond)]
  · next hcond => rw [if_neg (by simpa using hcond)]

theorem mapGet_evictExpired_eq_none (m : Store) (id : String) (c : PendingCommand) (t : Nat)
    (hnd : (m.map Prod.fst).Nodup) (hget : mapGet m id = some c)
    (ht : c.createdAt + COMMAND_TIMEOUT ≤ t) :
    mapGet (evictExpired m t) id = none := by
  induction m with
  | nil => simp [mapGet] at hget
  | cons e rest ih =>
    simp only [List.map_cons, List.nodup_cons] at hnd
    rw [evictExpired_cons]
    by_cases hek : e.1 = id
    · have hc : e.2 = c := by
        have hbeq : (e.1 == id) = true := by simpa using hek
        simp only [mapGet, List.find?, hbeq, Option.map_some] at hget
        simpa using hget
      rw [if_neg (by rw [hc]; omega)]
      apply mapGet_eq_none_of_no_key
      intro e' he' habs
      have hmem : e'.1 ∈ rest.map Prod.fst :=
        List.mem_map_of_mem Prod.fst (List.mem_of_mem_filter he')
      rw [habs, ← hek] at hmem
      exact hnd.1 hmem
    · have hbeq : (e.1 == id) = false := by simpa using hek
      have hget' : mapGet rest id = some c := by
        simp only [mapGet, List.find?, hbeq] at hget
        exact hget
      have ihr := ih hnd.2 hget'
      split
      · simp only [mapGet, List.find?, hbeq]
        exact ihr
      · exact ihr

/-- Claim C4: for every stored pending record, `consumePendingCommand` at any
time `t ≥ createdAt + TTL` (TTL = `COMMAND_TIMEOUT` = 300 s) returns `none`,
and the record is no longer present in the store: the eviction timer
scheduled at insertion has fired by then. -/
theorem consume_after_ttl_none (m : Store) (id : String) (c : PendingCommand) (t : Nat)
    (hnd : (m.map Prod.fst).Nodup) (hget : mapGet m id = some c)
    (ht : c.createdAt + COMMAND_TIMEOUT ≤ t) :
    (consumePendingCommand (evictExpired m t) id).1 = none ∧
    mapGet (consumePendingCommand (evictExpired m t) id).2 id = none := by
  have h := mapGet_evictExpired_eq_none m id c t hnd hget ht
  constructor
  · simp [consumePendingCommand, h]
  · simp [consumePendingCommand, h]

/-- Witness for C4 on a concrete store: a record created at time 0 cannot be
consumed at `t = COMMAND_TIMEOUT`. -/
theorem consume_after_ttl_none_witness :
    (consumePendingCommand
      (evictExpired [("cmd_0_ab", ⟨"cmd_0_ab", "s1", 7, "rm -rf /", "/ws", "r", 0⟩)] 300000)
      "cmd_0_ab").1 = none := by
  exact (consume_after_ttl_none
    [("cmd_0_ab", ⟨"cmd_0_ab", "s1", 7, "rm -rf /", "/ws", "r", 0⟩)]
    "cmd_0_ab" ⟨"cmd_0_ab", "s1", 7, "rm -rf /", "/ws", "r", 0⟩ 300000
    (by decide) (by decide) (by decide)).1

/-- Claim C5: consuming is once-only.  After a `consumePendingCommand` the
record is gone from the store, so a second consume of the same id returns
`none`; and consuming an id that is not in the store returns `none`. -/
theorem consume_at_most_once (m : Store) (id : String) :
    mapGet (consumePendingCommand m id).2 id = none ∧
    (consumePendingCommand (consumePendingCommand m id).2 id).1 = none ∧
    (mapGet m id = none → (consumePendingCommand m id).1 = none) := by
  have hdel : mapGet (consumePendingCommand m id).2 id = none := by
    match hget : mapGet m id with
    | some c => simp [consumePendingCommand, hget, mapGet_mapDelete]
    | none => simp [consumePendingCommand, hget]
  exact ⟨hdel, consume_of_mapGet_none _ id hdel, fun hget => consume_of_mapGet_none m id hget⟩

/-- Witness for C5 on a concrete one-record store. -/
theorem consume_at_most_once_witness :
    (consumePendingCommand
      (consumePendingCommand [("cmd_3_xy", ⟨"cmd_3_xy", "s", 1, "sudo id", "/w", "r", 3⟩)]
        "cmd_3_xy").2 "cmd_3_xy").1 = none :=
  (consume_at_most_once [("cmd_3_xy", ⟨"cmd_3_xy", "s", 1, "sudo id", "/w", "r", 3⟩)]
    "cmd_3_xy").2.1

/-! ## Active-user limiter (`rate-limiter.ts`) -/

/-- The constant `CONFIG.users.maxConcurrent` from `config.ts`. -/
def CONFIG_usersMaxConcurrent : Nat := 10

/-- Transliteration of `canAcceptUser`: true if the user is already active, or the active count
is below the maximum. -/
def canAcceptUser (activeUsers : Finset Int) (maxConcurrentUsers : Nat) (userId : Int) : Bool :=
  if userId ∈ activeUsers then true else decide (activeUsers.card < maxConcurrentUsers)

/-- Transliteration of `markUserActive`: `activeUsers.add(userId)`. -/
def markUserActive (activeUsers : Finset Int) (userId : Int) : Finset Int :=
  insert userId activeUsers

/-- Transliteration of `markUserInactive`: `activeUsers.delete(userId)`. -/
def markUserInactive (activeUsers : Finset Int) (userId : Int) : Finset Int :=
  activeUsers.erase userId

/-- One caller action on the limiter: a turn arrives, or a turn ends. -/
inductive AdmissionStep where
  | arrive (userId : Int)
  | leave (userId : Int)

/-- Apply one step of the atomic admission discipline: `markUserActive` is
applied only when `canAcceptUser` holds on the very state being marked.
This is deliberately stronger than the bot's text handler, where awaits
(e.g. the reaction sent between them) suspend the handler between the
`canAcceptUser` call and `markUserActive`; that separated protocol is
modelled by `loosePremiseOk` below. -/
def applyStep (maxConcurrentUsers : Nat) (activeUsers : Finset Int) :
    AdmissionStep → Finset Int
  | .arrive u =>
    if canAcceptUser activeUsers maxConcurrentUsers u then markUserActive activeUsers u
    else activeUsers
  | .leave u => markUserInactive activeUsers u

/-- Run a sequence of caller actions from the empty active set. -/
def runTrace (maxConcurrentUsers : Nat) (ops : List AdmissionStep) : Finset Int :=
  ops.foldl (applyStep maxConcurrentUsers) ∅

theorem applyStep_card_le (maxC : Nat) (s : Finset Int) (op : AdmissionStep)
    (h : s.card ≤ maxC) : (applyStep maxC s op).card ≤ maxC := by
  cases op with
  | arrive u =>
    simp only [applyStep]
    split
    · next hacc =>
      by_cases hmem : u ∈ s
      · simpa [markUserActive, Finset.insert_eq_self.mpr hmem] using h
      · have hlt : s.card < maxC := by
          simpa [canAcceptUser, hmem] using hacc
        simpa [markUserActive, Finset.card_insert_of_not_mem hmem] using hlt
    · exact h
  | leave u =>
    calc (markUserInactive s u).card ≤ s.card := Finset.card_erase_le
    _ ≤ maxC := h

theorem runTrace_card_le_aux (maxC : Nat) (ops : List AdmissionStep) (s : Finset Int)
    (h : s.card ≤ maxC) : (ops.foldl (applyStep maxC) s).card ≤ maxC := by
  induction ops generalizing s with
  | nil => simpa using h
  | cons op rest ih => exact ih _ (applyStep_card_le maxC s op h)

/-- One event of the admission protocol as the bot's text handler actually
executes it: the capacity check and the marking are separate events,
because awaits suspend the handler between the `canAcceptUser` call and
`markUserActive` (the caller replies and reacts in between). -/
inductive LimiterEv where
  | check (userId : Int)
  | mark (userId : Int)
  | unmark (userId : Int)

/-- Run the state changes of an event sequence (`check` only reads). -/
def runEvents (s : Finset Int) : List LimiterEv → Finset Int
  | [] => s
  | .check _ :: rest => runEvents s rest
  | .mark u :: rest => runEvents (markUserActive s u) rest
  | .unmark u :: rest => runEvents (markUserInactive s u) rest

/-- The claim's caller premise taken verbatim: every `markUserActive u` is
preceded by a `canAcceptUser u` call that returned true at its own,
possibly earlier, point of the execution.  `checked` carries the users
whose check has already succeeded. -/
def loosePremiseOk (maxC : Nat) (s : Finset Int) (checked : List Int) :
    List LimiterEv → Bool
  | [] => true
  | .check u :: rest =>
    if canAcceptUser s maxC u then loosePremiseOk maxC s (u :: checked) rest
    else loosePremiseOk maxC s checked rest
  | .mark u :: rest =>
    decide (u ∈ checked) && loosePremiseOk maxC (markUserActive s u) checked rest
  | .unmark u :: rest => loosePremiseOk maxC (markUserInactive s u) checked rest

/-- The racing execution: users 1..9 are checked and marked in turn; then
users 10 and 11 are both checked (each sees 9 active, below the bound of
10) before either is marked; then both are marked. -/
def raceTrace : List LimiterEv :=
  [.check 1, .mark 1, .check 2, .mark 2, .check 3, .mark 3, .check 4, .mark 4,
   .check 5, .mark 5, .check 6, .mark 6, .check 7, .mark 7, .check 8, .mark 8,
   .check 9, .mark 9, .check 10, .check 11, .mark 10, .mark 11]

/-- Claim C6 (counterexample): with the default bound 10, an execution in
which every `markUserActive` was preceded by a successful `canAcceptUser` -
the claim's premise verbatim - still drives the active-user set to 11,
because users 10 and 11 both pass the check before either marks itself
active, exactly the interleaving the awaits between check and mark allow. -/
theorem active_users_race_counterexample :
    loosePremiseOk CONFIG_usersMaxConcurrent ∅ [] raceTrace = true ∧
    ¬((runEvents ∅ raceTrace).card ≤ CONFIG_usersMaxConcurrent) := by decide

/-- Claim C6 (amended): when each admission's `canAcceptUser` check is
evaluated atomically with its `markUserActive` - no other admission
interleaved between the check and the mark - the active-user set never
exceeds `maxConcurrentUsers`, whose configured default is 10.  The source
handler does not provide this atomicity (awaits separate the two calls),
which is what the counterexample exploits. -/
theorem active_users_bounded :
    (∀ (maxC : Nat) (ops : List AdmissionStep), (runTrace maxC ops).card ≤ maxC) ∧
    CONFIG_usersMaxConcurrent = 10 :=
  ⟨fun maxC ops => runTrace_card_le_aux maxC ops ∅ (by simp), rfl⟩

/-! ## Outbound send with retries (`rate-limiter.ts`, `safeSend`) -/

/-- The constant `CONFIG.rateLimit.maxRetries`. -/
def CONFIG_maxRetries : Nat := 3

/-- The constant `CONFIG.rateLimit.retryBuffer` (seconds). -/
def CONFIG_retryBuffer : Nat := 5

/-- Outcome of one invocation of the wrapped send function `fn`:
it returns a value, throws a 429 rate-limit error (optionally carrying
`parameters.retry_after` seconds), or throws any other error. -/
inductive SendOutcome (T : Type) where
  | success (v : T)
  | err429 (retryAfter : Option Nat)
  | errOther
deriving DecidableEq

/-- Observable run of `safeSend`: the returned value, how many times `fn`
was invoked, and the sleeping delays (milliseconds) performed between
attempts, in order. -/
structure SafeSendRun (T : Type) where
  result : Option T
  calls : Nat
  sleeps : List Nat
deriving Repr

/-- The retry loop of `safeSend` (`for attempt = 1..maxRetries`), with
`left` the number of attempts remaining after the current one.  On a 429 it
sleeps `(retry_after || 30) + retryBuffer` seconds - only when a further
attempt exists - and retries; on any other error it returns null
immediately; after the last 429 it falls out of the loop and returns null. -/
def safeSendGo {T : Type} (o : Nat → SendOutcome T) (attempt : Nat) : Nat → SafeSendRun T
  | 0 =>
    match o attempt with
    | .success v => ⟨some v, 1, []⟩
    | .err429 _ => ⟨none, 1, []⟩
    | .errOther => ⟨none, 1, []⟩
  | left + 1 =>
    match o attempt with
    | .success v => ⟨some v, 1, []⟩
    | .err429 r =>
      let rest := safeSendGo o (attempt + 1) left
      ⟨rest.result, rest.calls + 1, (r.getD 30 + CONFIG_retryBuffer) * 1000 :: rest.sleeps⟩
    | .errOther => ⟨none, 1, []⟩

/-- Transliteration of `safeSend` with the attempt outcomes abstracted into the oracle `o`
(`o k` is what the `k`-th invocation of `fn` does, 1-based). -/
def safeSendModel {T : Type} (o : Nat → SendOutcome T) (maxRetries : Nat) : SafeSendRun T :=
  if maxRetries = 0 then ⟨none, 0, []⟩ else safeSendGo o 1 (maxRetries - 1)

theorem safeSendGo_calls_le {T : Type} (o : Nat → SendOutcome T) (attempt left : Nat) :
    (safeSendGo o attempt left).calls ≤ left + 1 := by
  induction left generalizing attempt with
  | zero =>
    match h : o attempt with
    | .success v => simp [safeSendGo, h]
    | .err429 r => simp [safeSendGo, h]
    | .errOther => simp [safeSendGo, h]
  | succ n ih =>
    match h : o attempt with
    | .success v => simp [safeSendGo, h]
    | .err429 r =>
      have := ih (attempt + 1)
      simp only [safeSendGo, h]
      omega
    | .errOther => simp [safeSendGo, h]

/-- Claim C8: `safeSend` makes at most `maxRetries = 3` attempts of the
wrapped function; if attempt `k` succeeds (earlier attempts being 429s) the
provider's response is returned; if attempt `k` throws a non-429 error
(earlier attempts being 429s) it returns null right there, after exactly `k`
calls; if all 3 attempts are rate-limited it returns null after 3 calls; and
each 429 before the last attempt that carries `retry_after = R` is followed
by a sleep of `(R + 5) * 1000` milliseconds before the next attempt. -/
theorem safeSend_retry_policy {T : Type} (o : Nat → SendOutcome T) :
    (safeSendModel o 3).calls ≤ 3 ∧
    (∀ k v, 1 ≤ k → k ≤ 3 → o k = .success v →
      (∀ j, 1 ≤ j → j < k → ∃ r, o j = .err429 r) →
      (safeSendModel o 3).result = some v) ∧
    (∀ k, 1 ≤ k → k ≤ 3 → o k = .errOther →
      (∀ j, 1 ≤ j → j < k → ∃ r, o j = .err429 r) →
      (safeSendModel o 3).result = none ∧ (safeSendModel o 3).calls = k) ∧
    ((∀ j, 1 ≤ j → j ≤ 3 → ∃ r, o j = .err429 r) →
      (safeSendModel o 3).result = none ∧ (safeSendModel o 3).calls = 3) ∧
    (∀ k R, 1 ≤ k → k < 3 → o k = .err429 (some R) →
      (∀ j, 1 ≤ j → j < k → ∃ r, o j = .err429 r) →
      (safeSendModel o 3).sleeps.get? (k - 1) = some ((R + 5) * 1000)) := by
  refine ⟨?_, ?_, ?_, ?_, ?_⟩
  · have := safeSendGo_calls_le o 1 2
    simpa [safeSendModel] using this
  · intro k v hk1 hk3 hsucc hprev
    interval_cases k
    · simp [safeSendModel, safeSendGo, hsucc]
    · obtain ⟨r1, h1⟩ := hprev 1 (by omega) (by omega)
      simp [safeSendModel, safeSendGo, h1, hsucc]
    · obtain ⟨r1, h1⟩ := hprev 1 (by omega) (by omega)
      obtain ⟨r2, h2⟩ := hprev 2 (by omega) (by omega)
      simp [safeSendModel, safeSendGo, h1, h2, hsucc]
  · intro k hk1 hk3 herr hprev
    interval_cases k
    · simp [safeSendModel, safeSendGo, herr]
    · obtain ⟨r1, h1⟩ := hprev 1 (by omega) (by omega)
      simp [safeSendModel, safeSendGo, h1, herr]
    · obtain ⟨r1, h1⟩ := hprev 1 (by omega) (by omega)
      obtain ⟨r2, h2⟩ := hprev 2 (by omega) (by omega)
      simp [safeSendModel, safeSendGo, h1, h2, herr]
  · intro hall
    obtain ⟨r1, h1⟩ := hall 1 (by omega) (by omega)
    obtain ⟨r2, h2⟩ := hall 2 (by omega) (by omega)
    obtain ⟨r3, h3⟩ := hall 3 (by omega) (by omega)
    simp [safeSendModel, safeSendGo, h1, h2, h3]
  · intro k R hk1 hk3 h429 hprev
    interval_cases k
    · cases h2 : o 2 with
      | success v => simp [safeSendModel, safeSendGo, h429, h2, CONFIG_retryBuffer]
      | err429 r => simp [safeSendModel, safeSendGo, h429, h2, CONFIG_retryBuffer]
      | errOther => simp [safeSendModel, safeSendGo, h429, h2, CONFIG_retryBuffer]
    · obtain ⟨r1, h1⟩ := hprev 1 (by omega) (by omega)
      cases h3 : o 3 with
      | success v => simp [safeSendModel, safeSendGo, h1, h429, h3, CONFIG_retryBuffer]
      | err429 r => simp [safeSendModel, safeSendGo, h1, h429, h3, CONFIG_retryBuffer]
      | errOther => simp [safeSendModel, safeSendGo, h1, h429, h3, CONFIG_retryBuffer]

/-- Witness for C8: first attempt rate-limited with `retry_after = 7`,
second attempt succeeds; the response is returned and the recorded sleep is
`(7 + 5) * 1000` ms. -/
theorem safeSend_retry_policy_witness :
    (safeSendModel (fun n => if n = 1 then .err429 (some 7) else .success 42) 3).result
        = some 42 ∧
    (safeSendModel (fun n => if n = 1 then .err429 (some 7) else .success (42 : Nat)) 3).sleeps.get? 0
        = some 12000 := by
  constructor
  · exact (safeSend_retry_policy (fun n => if n = 1 then .err429 (some 7) else .success 42)).2.1
      2 42 (by omega) (by omega) (by decide)
      (fun j hj1 hjk => ⟨some 7, by interval_cases j; decide⟩)
  · have := (safeSend_retry_policy
      (fun n => if n = 1 then .err429 (some 7) else .success (42 : Nat))).2.2.2.2
      1 7 (by omega) (by omega) (by decide) (fun j hj1 hjk => by omega)
    simpa using this

/-! ## String and path helpers for `src/tools/files.ts` -/

/-- Prefix test on character lists (basis of `String.startsWith` and of the
substring scan). -/
def leadsWith : List Char → List Char → Bool
  | [], _ => true
  | _ :: _, [] => false
  | p :: ps, c :: cs => p == c && leadsWith ps cs

/-- Try a predicate at every suffix of the input (every match position). -/
def scanTest (p : List Char → Bool) : List Char → Bool
  | [] => p []
  | c :: rest => p (c :: rest) || scanTest p rest

/-- JS `String.prototype.startsWith`. -/
def strStarts (s pre : String) : Bool := leadsWith pre.data s.data

/-- JS `String.prototype.includes`. -/
def strContains (s sub : String) : Bool := scanTest (fun l => leadsWith sub.data l) s.data

/-- Node's `path.basename`: the last path segment, ignoring trailing
slashes. -/
def basename (p : String) : String :=
  let trimmed := (p.data.reverse.dropWhile (fun c => c == '/')).reverse
  if trimmed.isEmpty then p
  else String.mk ((trimmed.reverse.takeWhile (fun c => !(c == '/'))).reverse)

/-- Split a character list on a separator character. -/
def splitOnChar (sep : Char) : List Char → List (List Char)
  | [] => [[]]
  | c :: rest =>
    match splitOnChar sep rest with
    | [] => [[c]]
    | s :: ss => if c == sep then [] :: s :: ss else (c :: s) :: ss

/-- Join path segments with `/`. -/
def joinSegs : List (List Char) → List Char
  | [] => []
  | [s] => s
  | s :: rest => s ++ '/' :: joinSegs rest

/-- Segment normalization for `path.resolve`: skip empty and `.` segments,
pop on `..`. -/
def normalizeSegs (acc : List (List Char)) : List (List Char) → List (List Char)
  | [] => acc.reverse
  | seg :: rest =>
    if seg == [] || seg == ['.'] then normalizeSegs acc rest
    else if seg == ['.', '.'] then normalizeSegs (acc.drop 1) rest
    else normalizeSegs (seg :: acc) rest

/-- Node's `path.resolve` on an absolute path: lexical normalization of `.`,
`..` and repeated separators (it does not follow symlinks). -/
def resolvePath (p : String) : String :=
  String.mk ('/' :: joinSegs (normalizeSegs [] (splitOnChar '/' p.data)))

/-- Node's `path.join(cwd, p)` for an absolute `cwd` (normalizing join). -/
def joinPath (cwd p : String) : String := resolvePath (cwd ++ "/" ++ p)

/-- The expression `args.path.startsWith('/') ? args.path : join(cwd, args.path)`, shared by
the file tools. -/
def toolFullPath (path cwd : String) : String :=
  if strStarts path "/" then path else joinPath cwd path

/-- JS `String.prototype.toLowerCase` (character-wise case folding). -/
def strLower (s : String) : String := String.mk (s.data.map Char.toLower)

/-! ## Sensitive-file rules (`src/tools/files.ts`) -/

/-- The `SENSITIVE_FILES` list: base names that must never be read. -/
def SENSITIVE_FILES : List String := [
  ".env", ".env.local", ".env.production", ".env.development", ".env.staging",
  "credentials.json", "credentials.yaml", "secrets.json", "secrets.yaml", ".secrets",
  "service-account.json", "serviceAccountKey.json", ".npmrc", ".pypirc",
  "id_rsa", "id_ed25519", "id_ecdsa", "id_dsa", ".pem", ".key"]

/-- A sensitive-path regex (all carry the `i` flag). -/
structure SPat where
  pattern : RE
  ci : Bool

/-- The `SENSITIVE_PATTERNS` list, transliterated in order. -/
def SENSITIVE_PATTERNS : List SPat := [
  ⟨rseq [rlit ".env", ropt (rseq [RE.chr '.', rplus (rrange 'a' 'z')]), RE.eos], true⟩,
  ⟨rseq [rlit "credential", ropt (RE.chr 's'), RE.chr '.',
      RE.alt (rlit "json") (RE.alt (rlit "yaml") (rlit "yml")), RE.eos], true⟩,
  ⟨rseq [rlit "secret", ropt (RE.chr 's'), RE.chr '.',
      RE.alt (rlit "json") (RE.alt (rlit "yaml") (rlit "yml")), RE.eos], true⟩,
  ⟨rseq [rlit "service", ropt RE.dot, rlit "account", dotStar, RE.chr '.', rlit "json",
      RE.eos], true⟩,
  ⟨rseq [rlit "private", ropt RE.dot, rlit "key"], true⟩,
  ⟨rseq [rlit "id_", RE.alt (rlit "rsa") (RE.alt (rlit "dsa")
      (RE.alt (rlit "ecdsa") (rlit "ed25519"))), RE.eos], true⟩,
  ⟨rseq [RE.chr '.', RE.alt (rlit "pem") (RE.alt (rlit "key")
      (RE.alt (rlit "p12") (rlit "pfx"))), RE.eos], true⟩]

/-- Transliteration of `isSensitiveFile`: base name on the allowlist (case-insensitively), or
the lower-cased full path matching a sensitive pattern, or a `.ssh`
directory segment anywhere in the path. -/
def isSensitiveFile (filePath : String) : Bool :=
  let fileName := strLower (basename filePath)
  let fullPath := strLower filePath
  SENSITIVE_FILES.any (fun f => fileName == strLower f) ||
  SENSITIVE_PATTERNS.any (fun p => reTest p.ci p.pattern fullPath) ||
  (strContains fullPath "/.ssh/" || strContains fullPath "\\.ssh\\")

/-! ## Filesystem oracle and symlink-escape check -/

/-- The filesystem operations `files.ts` performs, abstracted as a total
oracle.  `realpath p = none` and `writeOk p = some msg` model the
corresponding call throwing. -/
structure FS where
  existsSync : String → Bool
  realpath : String → Option String
  isSymbolicLink : String → Bool
  readFile : String → Except String String
  writeOk : String → Option String

/-- Return record of `isSymlinkEscape`. -/
structure EscapeCheck where
  escape : Bool
  reason : Option String
deriving Repr, DecidableEq

/-- The sensitive locations checked for symlink targets. -/
def SENSITIVE_LOCATIONS : List String :=
  ["/etc", "/root", "/home", "/proc", "/sys", "/dev", "/var"]

/-- Transliteration of `isSymlinkEscape` from `src/tools/files.ts`: non-existent paths pass; the
canonical path must equal the workspace or live under `workspace + "/"`; an
existing symlink must not point into a sensitive location; a throwing
`realpathSync` is caught and passes. -/
def isSymlinkEscape (fs : FS) (filePath workspacePath : String) : EscapeCheck :=
  if !(fs.existsSync filePath) then ⟨false, none⟩
  else
    match fs.realpath filePath, fs.realpath workspacePath with
    | some realPath, some realWorkspace =>
      if !(strStarts realPath (realWorkspace ++ "/")) && !(realPath == realWorkspace) then
        ⟨true, some ("Symlink points outside workspace (" ++ realPath ++ ")")⟩
      else if fs.isSymbolicLink filePath then
        match SENSITIVE_LOCATIONS.find? (fun sensitive => strStarts realPath sensitive) with
        | some sensitive =>
          ⟨true, some ("Symlink points to sensitive location (" ++ sensitive ++ ")")⟩
        | none => ⟨false, none⟩
      else ⟨false, none⟩
    | _, _ => ⟨false, none⟩

/-! ## read_file and write_file -/

/-- Tool result record `{ success, output?, error? }`. -/
structure ToolResult where
  success : Bool
  output : Option String
  error : Option String
deriving Repr, DecidableEq

/-- Arguments of `read_file`. -/
structure ReadArgs where
  path : String
  offset : Option Nat
  limit : Option Nat

/-- The offset/limit line slicing of `executeRead` (`lines.slice(start, end)`
with 1-based numbering prefixes; JS falsy `0` behaves like the default). -/
def sliceLines (content : String) (offset limit : Option Nat) : String :=
  let lines := content.splitOn "\n"
  let start := (match offset with | some o => if o == 0 then 1 else o | none => 1) - 1
  let stop := match limit with
    | some lim => if lim == 0 then lines.length else start + lim
    | none => lines.length
  String.intercalate "\n"
    (((lines.drop start).take (stop - start)).mapIdx
      (fun i l => toString (start + i + 1) ++ "|" ++ l))

/-- Transliteration of `executeRead` from `src/tools/files.ts`: sensitive-file guard, then
symlink-escape guard, then existence check, then the actual read with
optional slicing and 100000-character truncation. -/
def executeRead (fs : FS) (args : ReadArgs) (cwd : String) : ToolResult :=
  let fullPath := toolFullPath args.path cwd
  if isSensitiveFile fullPath then
    ⟨false, none, some ("🚫 BLOCKED: Cannot read sensitive file (" ++ basename fullPath ++
      "). This file may contain secrets.")⟩
  else
    let symlinkCheck := isSymlinkEscape fs fullPath cwd
    if symlinkCheck.escape then
      ⟨false, none, some ("🚫 BLOCKED: " ++ symlinkCheck.reason.getD "")⟩
    else if !(fs.existsSync fullPath) then
      ⟨false, none, some ("File not found: " ++ fullPath)⟩
    else
      match fs.readFile fullPath with
      | .error msg => ⟨false, none, some msg⟩
      | .ok raw =>
        let c1 := if args.offset.isSome || args.limit.isSome then
            sliceLines raw args.offset args.limit
          else raw
        let c2 := if c1.length > 100000 then c1.take 100000 ++ "\n...(truncated)" else c1
        ⟨true, some (if c2 == "" then "(empty file)" else c2), none⟩

/-- Arguments of `write_file`. -/
structure WriteArgs where
  path : String
  content : String

/-- Transliteration of `executeWrite` from `src/tools/files.ts`.  The second component records
the write that was performed (`none` when nothing was written). -/
def executeWrite (fs : FS) (args : WriteArgs) (cwd : String) :
    ToolResult × Option (String × String) :=
  let fullPath := toolFullPath args.path cwd
  let resolvedPath := resolvePath fullPath
  let resolvedCwd := resolvePath cwd
  if !(strStarts resolvedPath (resolvedCwd ++ "/")) && !(resolvedPath == resolvedCwd) then
    (⟨false, none, some "🚫 BLOCKED: Cannot write files outside workspace"⟩, none)
  else if isSensitiveFile fullPath then
    (⟨false, none, some ("🚫 BLOCKED: Cannot write to sensitive file (" ++
      basename fullPath ++ ")")⟩, none)
  else
    let symlinkCheck := isSymlinkEscape fs fullPath cwd
    if symlinkCheck.escape then
      (⟨false, none, some ("🚫 BLOCKED: " ++ symlinkCheck.reason.getD "")⟩, none)
    else
      match fs.writeOk fullPath with
      | some msg => (⟨false, none, some msg⟩, none)
      | none =>
        (⟨true, some ("Written " ++ toString args.content.length ++ " bytes to " ++ args.path),
          none⟩, some (fullPath, args.content))

theorem leadsWith_append (p l l' : List Char) (h : leadsWith p l = true) :
    leadsWith p (l ++ l') = true := by
  induction p generalizing l with
  | nil => rfl
  | cons x xs ih =>
    cases l with
    | nil => simp [leadsWith] at h
    | cons c cs =>
      simp only [leadsWith, List.cons_append, Bool.and_eq_true] at h ⊢
      exact ⟨h.1, ih cs h.2⟩

theorem strStarts_append_of (a b p : String) (h : strStarts a p = true) :
    strStarts (a ++ b) p = true := by
  simp only [strStarts, String.data_append]
  exact leadsWith_append p.data a.data b.data h

/-- A filesystem oracle on which nothing exists (for concrete witnesses). -/
def fsEmpty : FS :=
  ⟨fun _ => false, fun _ => none, fun _ => false, fun _ => Except.error "", fun _ => none⟩

/-- Claim C2: `executeRead` returns a security-blocked failure, and no file
contents, for every path that names a sensitive file (base-name allowlist,
sensitive regex set, or a `.ssh` segment - that is, `isSensitiveFile`), and
for every existing path whose canonical (symlink-resolved) form is neither
the workspace nor a descendant of it. -/
theorem executeRead_blocks (fs : FS) (args : ReadArgs) (cwd : String)
    (h : isSensitiveFile (toolFullPath args.path cwd) = true ∨
      (fs.existsSync (toolFullPath args.path cwd) = true ∧
       ∃ rp rw, fs.realpath (toolFullPath args.path cwd) = some rp ∧
         fs.realpath cwd = some rw ∧ strStarts rp (rw ++ "/") = false ∧ rp ≠ rw)) :
    (executeRead fs args cwd).success = false ∧
    (executeRead fs args cwd).output = none ∧
    ∃ msg, (executeRead fs args cwd).error = some msg ∧ strStarts msg "🚫 BLOCKED" = true := by
  by_cases hsens : isSensitiveFile (toolFullPath args.path cwd) = true
  · refine ⟨by simp [executeRead, hsens], by simp [executeRead, hsens],
      "🚫 BLOCKED: Cannot read sensitive file (" ++ basename (toolFullPath args.path cwd) ++
        "). This file may contain secrets.", by simp [executeRead, hsens], ?_⟩
    apply strStarts_append_of
    apply strStarts_append_of
    decide
  · rcases h with h | ⟨hex, rp, rw, hrp, hrw, hout, hne⟩
    · exact absurd h hsens
    · have hneb : (rp == rw) = false := by simpa using hne
      have hescape : isSymlinkEscape fs (toolFullPath args.path cwd) cwd =
          ⟨true, some ("Symlink points outside workspace (" ++ rp ++ ")")⟩ := by
        simp [isSymlinkEscape, hex, hrp, hrw, hout, hneb]
      refine ⟨by simp [executeRead, hsens, hescape],
        by simp [executeRead, hsens, hescape],
        "🚫 BLOCKED: " ++ ("Symlink points outside workspace (" ++ rp ++ ")"),
        by simp [executeRead, hsens, hescape], ?_⟩
      apply strStarts_append_of
      decide

/-- Witness for C2: reading `/ws/.env` (a sensitive base name) is blocked,
and reading an existing file whose canonical form `/etc/passwd` lies outside
the workspace `/ws` is blocked with a security message. -/
theorem executeRead_blocks_witness :
    ((executeRead fsEmpty ⟨"/ws/.env", none, none⟩ "/ws").success = false ∧
      (executeRead fsEmpty ⟨"/ws/.env", none, none⟩ "/ws").output = none) ∧
    ((executeRead
        ⟨fun _ => true, fun p => if p = "/ws" then some "/ws" else some "/etc/passwd",
          fun _ => false, fun _ => Except.error "", fun _ => none⟩
        ⟨"/ws/link", none, none⟩ "/ws").success = false) := by
  constructor
  · have h := executeRead_blocks fsEmpty ⟨"/ws/.env", none, none⟩ "/ws" (Or.inl (by decide))
    exact ⟨h.1, h.2.1⟩
  · exact (executeRead_blocks
      ⟨fun _ => true, fun p => if p = "/ws" then some "/ws" else some "/etc/passwd",
        fun _ => false, fun _ => Except.error "", fun _ => none⟩
      ⟨"/ws/link", none, none⟩ "/ws"
      (Or.inr ⟨rfl, "/etc/passwd", "/ws", by decide, by decide, by decide, by decide⟩)).1

/-- Claim C7: `executeWrite` blocks, and writes nothing, whenever the
resolved canonical form of the requested path is neither the workspace nor
a path beginning with `workspace + "/"`. -/
theorem executeWrite_outside_blocked (fs : FS) (args : WriteArgs) (cwd : String)
    (h1 : strStarts (resolvePath (toolFullPath args.path cwd)) (resolvePath cwd ++ "/") = false)
    (h2 : resolvePath (toolFullPath args.path cwd) ≠ resolvePath cwd) :
    executeWrite fs args cwd =
      (⟨false, none, some "🚫 BLOCKED: Cannot write files outside workspace"⟩, none) := by
  have h2b : (resolvePath (toolFullPath args.path cwd) == resolvePath cwd) = false := by
    simpa using h2
  simp [executeWrite, h1, h2b]

/-- Witness for C7: the dot-dot traversal `/workspace/42/../43/x` under
workspace `/workspace/42` resolves to `/workspace/43/x` and is blocked with
nothing written. -/
theorem executeWrite_outside_blocked_witness :
    executeWrite fsEmpty ⟨"/workspace/42/../43/x", "hi"⟩ "/workspace/42" =
      (⟨false, none, some "🚫 BLOCKED: Cannot write files outside workspace"⟩, none) :=
  executeWrite_outside_blocked fsEmpty ⟨"/workspace/42/../43/x", "hi"⟩ "/workspace/42"
    (by decide) (by decide)

/-! ## search_text secrets guard (`src/tools/files.ts`, `executeSearchText`) -/

/-- Case-insensitive prefix check: the transliteration of matching a
lower-case literal under the `i` flag (pattern character against the
case-folded input character). -/
def ciLeads : List Char → List Char → Bool
  | [], _ => true
  | _ :: _, [] => false
  | p :: ps, c :: cs => p == c.toLower && ciLeads ps cs

/-- Embedding of `.?` followed by a literal: either the literal directly, or one
arbitrary non-line-terminator character and then the literal. -/
def optDotThen (pat : List Char) (l : List Char) : Bool :=
  ciLeads pat l ||
    (match l with
     | [] => false
     | c :: r => jsDotChar c && ciLeads pat r)

/-- Match of `/password|secret|token|api.?key|credential|private.?key/i` at
the current position, alternative by alternative in source order. -/
def secretHere (l : List Char) : Bool :=
  ciLeads "password".data l || ciLeads "secret".data l || ciLeads "token".data l ||
  (ciLeads "api".data l && optDotThen "key".data (l.drop 3)) ||
  ciLeads "credential".data l ||
  (ciLeads "private".data l && optDotThen "key".data (l.drop 7))

/-- Transliteration of `secretPatterns.test(args.pattern)`: a match at some position. -/
def secretPatternsTest (s : String) : Bool := scanTest secretHere s.data

/-- Arguments of `search_text`. -/
structure SearchTextArgs where
  pattern : String
  path : Option String
  context_before : Option Nat
  context_after : Option Nat
  files_only : Option Bool
  ignore_case : Option Bool

/-- Transliteration of `executeSearchText` from `src/tools/files.ts`: the secrets guard, then a
`grep` invocation built from the arguments (the `grep` oracle returns the
command's stdout, `none` modelling a thrown error, which the source maps to
"(no matches)").  The second component records whether a search ran. -/
def executeSearchText (grep : String → Option String) (args : SearchTextArgs) (cwd : String) :
    ToolResult × Bool :=
  if secretPatternsTest args.pattern then
    (⟨false, none, some "🚫 BLOCKED: Cannot search for secrets/credentials patterns"⟩, false)
  else
    let searchPath := match args.path with
      | some p => if strStarts p "/" then p else joinPath cwd p
      | none => cwd
    let flags := ["-rn"] ++
      (if args.ignore_case.getD false then ["-i"] else []) ++
      (if args.files_only.getD false then ["-l"] else []) ++
      (match args.context_before with
       | some n => if n == 0 then [] else ["-B" ++ toString n]
       | none => []) ++
      (match args.context_after with
       | some n => if n == 0 then [] else ["-A" ++ toString n]
       | none => []) ++
      ["--exclude-dir=node_modules", "--exclude-dir=.git", "--exclude-dir=dist",
       "--exclude=*.env*", "--exclude=*credentials*", "--exclude=*secret*",
       "--exclude=*.pem", "--exclude=*.key", "--exclude=id_rsa*"]
    let escapedPattern := args.pattern.replace "\"" "\\\""
    let cmd := "grep " ++ String.intercalate " " flags ++ " \"" ++ escapedPattern ++ "\" \"" ++
      searchPath ++ "\" 2>/dev/null | head -200"
    match grep cmd with
    | some output => (⟨true, some (if output == "" then "(no matches)" else output), none⟩, true)
    | none => (⟨true, some "(no matches)", none⟩, true)

/-! The specification-side characterization of the guard. -/

/-- The word `a`, at most one joiner character (any character other than a
line terminator), then `key` - at the current position. -/
def specJoinKey (a : List Char) (t : List Char) : Bool :=
  leadsWith a t &&
    (leadsWith "key".data (t.drop a.length) ||
      (match t.drop a.length with
       | [] => false
       | c :: r => jsDotChar c && leadsWith "key".data r))

/-- One of the guarded words occurs at the current position of the
lower-cased pattern: `password`, `secret`, `token`, `credential`, or
`api`/`private` joined to `key` by at most one arbitrary character. -/
def secretSpecHere (t : List Char) : Bool :=
  leadsWith "password".data t || leadsWith "secret".data t || leadsWith "token".data t ||
  leadsWith "credential".data t || specJoinKey "api".data t || specJoinKey "private".data t

/-- The amended claim's predicate: the lower-cased search pattern contains
one of the guarded words (with the at-most-one-joiner rule for
`api…key`/`private…key`). -/
def secretSpecBlocked (s : String) : Bool :=
  scanTest secretSpecHere (s.data.map Char.toLower)

/-- The claim's literal word list: `password`, `secret`, `token`,
`credential`, and only the space/hyphen/empty joiners for
`api…key`/`private…key`. -/
def claimListedBlocked (s : String) : Bool :=
  ["password", "secret", "token", "credential", "api key", "api-key", "apikey",
   "private key", "private-key", "privatekey"].any
    (fun p => scanTest (fun t => leadsWith p.data t) (s.data.map Char.toLower))

theorem jsDotChar_toLower (c : Char) : jsDotChar c.toLower = jsDotChar c := by
  have hdef : c.toLower =
      if c.toNat ≥ 65 ∧ c.toNat ≤ 90 then Char.ofNat (c.toNat + 32) else c := rfl
  rw [hdef]
  by_cases h : c.toNat ≥ 65 ∧ c.toNat ≤ 90
  · rw [if_pos h]
    have hb : 65 ≤ c.toNat ∧ c.toNat ≤ 90 := h
    have hvalid : (c.toNat + 32).isValidChar := Or.inl (by omega)
    have hv : (Char.ofNat (c.toNat + 32)).toNat = c.toNat + 32 := by
      unfold Char.ofNat
      rw [dif_pos hvalid]
      rfl
    have hn : ('\n' : Char).toNat = 10 := by decide
    have hr : ('\r' : Char).toNat = 13 := by decide
    have h28 : (Char.ofNat 0x2028).toNat = 8232 := by decide
    have h29 : (Char.ofNat 0x2029).toNat = 8233 := by decide
    have e1 : (Char.ofNat (c.toNat + 32) == '\n') = false := by
      apply beq_false_of_ne
      intro habs
      have := congrArg Char.toNat habs
      rw [hv, hn] at this
      omega
    have e2 : (Char.ofNat (c.toNat + 32) == '\r') = false := by
      apply beq_false_of_ne
      intro habs
      have := congrArg Char.toNat habs
      rw [hv, hr] at this
      omega
    have e3 : (Char.ofNat (c.toNat + 32) == Char.ofNat 0x2028) = false := by
      apply beq_false_of_ne
      intro habs
      have := congrArg Char.toNat habs
      rw [hv, h28] at this
      omega
    have e4 : (Char.ofNat (c.toNat + 32) == Char.ofNat 0x2029) = false := by
      apply beq_false_of_ne
      intro habs
      have := congrArg Char.toNat habs
      rw [hv, h29] at this
      omega
    have f1 : (c == '\n') = false := by
      apply beq_false_of_ne
      intro habs
      have := congrArg Char.toNat habs
      rw [hn] at this
      omega
    have f2 : (c == '\r') = false := by
      apply beq_false_of_ne
      intro habs
      have := congrArg Char.toNat habs
      rw [hr] at this
      omega
    have f3 : (c == Char.ofNat 0x2028) = false := by
      apply beq_false_of_ne
      intro habs
      have := congrArg Char.toNat habs
      rw [h28] at this
      omega
    have f4 : (c == Char.ofNat 0x2029) = false := by
      apply beq_false_of_ne
      intro habs
      have := congrArg Char.toNat habs
      rw [h29] at this
      omega
    simp [jsDotChar, e1, e2, e3, e4, f1, f2, f3, f4]
  · rw [if_neg h]

theorem ciLeads_eq (ps : List Char) : ∀ l : List Char,
    ciLeads ps l = leadsWith ps (l.map Char.toLower) := by
  induction ps with
  | nil => intro l; rfl
  | cons p pt ih =>
    intro l
    cases l with
    | nil => rfl
    | cons c cs => simp [ciLeads, leadsWith, ih]

theorem scanTest_map (f : Char → Char) (q : List Char → Bool) (l : List Char) :
    scanTest q (l.map f) = scanTest (fun t => q (t.map f)) l := by
  induction l with
  | nil => rfl
  | cons c rest ih => simp [scanTest, List.map_cons, ih]

theorem scanTest_congr (p q : List Char → Bool) (h : ∀ t, p t = q t) (l : List Char) :
    scanTest p l = scanTest q l := by
  induction l with
  | nil => simpa using h []
  | cons c rest ih => simp [scanTest, h (c :: rest), ih]

theorem optDotThen_eq_specTail (u : List Char) :
    optDotThen "key".data u =
      (leadsWith "key".data (u.map Char.toLower) ||
        (match u.map Char.toLower with
         | [] => false
         | c :: r => jsDotChar c && leadsWith "key".data r)) := by
  cases u with
  | nil => rfl
  | cons c r =>
    simp only [optDotThen, List.map_cons, ciLeads_eq, jsDotChar_toLower]

theorem apiBranch_eq (a : List Char) (n : Nat) (hn : a.length = n) (t : List Char) :
    (ciLeads a t && optDotThen "key".data (t.drop n)) = specJoinKey a (t.map Char.toLower) := by
  rw [← hn]
  simp only [specJoinKey, ciLeads_eq, ← List.map_drop]
  rw [optDotThen_eq_specTail]

theorem orSwapMid (a b c d e f : Bool) :
    (a || b || c || d || e || f) = (a || b || c || e || d || f) := by
  cases d <;> cases e <;> simp

theorem secretHere_eq (t : List Char) :
    secretHere t = secretSpecHere (t.map Char.toLower) := by
  have h4 := apiBranch_eq "api".data 3 (by decide) t
  have h6 := apiBranch_eq "private".data 7 (by decide) t
  unfold secretHere secretSpecHere
  rw [h4, h6, ciLeads_eq, ciLeads_eq, ciLeads_eq, ciLeads_eq]
  exact orSwapMid _ _ _ _ _ _

theorem secretPatternsTest_eq_spec (s : String) :
    secretPatternsTest s = secretSpecBlocked s := by
  unfold secretPatternsTest secretSpecBlocked
  rw [scanTest_map]
  exact scanTest_congr _ _ secretHere_eq s.data

/-- Claim C10 (counterexample to the claim as stated): the search pattern
`api_key` contains none of the claim's listed substrings (`api key`,
`api-key`, `apikey`, ...), yet `executeSearchText` refuses it with the
blocked-secrets error, because the source regex `api.?key` accepts any
single joiner character. -/
theorem executeSearchText_api_underscore_key_blocked :
    (executeSearchText (fun _ => none) ⟨"api_key", none, none, none, none, none⟩ "/ws").1.error =
      some "🚫 BLOCKED: Cannot search for secrets/credentials patterns" ∧
    claimListedBlocked "api_key" = false := by
  exact ⟨rfl, by decide⟩

/-- Claim C10 (amended): `executeSearchText` returns the blocked-secrets
failure, without running any search, exactly when the lower-cased pattern
contains `password`, `secret`, `token`, `credential`, or `api`/`private`
joined to `key` by at most one arbitrary character (any character other than
a line terminator); every other pattern reaches the `grep` invocation, which
reports success. -/
theorem executeSearchText_blocked_iff (grep : String → Option String)
    (args : SearchTextArgs) (cwd : String) :
    (secretSpecBlocked args.pattern = true →
      executeSearchText grep args cwd =
        (⟨false, none, some "🚫 BLOCKED: Cannot search for secrets/credentials patterns"⟩,
          false)) ∧
    (secretSpecBlocked args.pattern = false →
      (executeSearchText grep args cwd).2 = true ∧
      (executeSearchText grep args cwd).1.success = true ∧
      (executeSearchText grep args cwd).1.error = none) := by
  constructor
  · intro h
    have hg : secretPatternsTest args.pattern = true := by
      rw [secretPatternsTest_eq_spec]
      exact h
    simp [executeSearchText, hg]
  · intro h
    have hg : secretPatternsTest args.pattern = false := by
      rw [secretPatternsTest_eq_spec]
      exact h
    simp only [executeSearchText, hg, Bool.false_eq_true, if_false]
    cases grep ("grep " ++ String.intercalate " "
        (["-rn"] ++
          (if args.ignore_case.getD false then ["-i"] else []) ++
          (if args.files_only.getD false then ["-l"] else []) ++
          (match args.context_before with
           | some n => if n == 0 then [] else ["-B" ++ toString n]
           | none => []) ++
          (match args.context_after with
           | some n => if n == 0 then [] else ["-A" ++ toString n]
           | none => []) ++
          ["--exclude-dir=node_modules", "--exclude-dir=.git", "--exclude-dir=dist",
           "--exclude=*.env*", "--exclude=*credentials*", "--exclude=*secret*",
           "--exclude=*.pem", "--exclude=*.key", "--exclude=id_rsa*"]) ++
        " \"" ++ args.pattern.replace "\"" "\\\"" ++ "\" \"" ++
        (match args.path with
         | some p => if strStarts p "/" then p else joinPath cwd p
         | none => cwd) ++ "\" 2>/dev/null | head -200") with
    | some output => exact ⟨rfl, rfl, rfl⟩
    | none => exact ⟨rfl, rfl, rfl⟩

/-- Witness for amended C10: searching for `token` is refused without
running a search; searching for `hello` runs the search and succeeds. -/
theorem executeSearchText_blocked_iff_witness :
    executeSearchText (fun _ => some "x") ⟨"token", none, none, none, none, none⟩ "/ws" =
      (⟨false, none, some "🚫 BLOCKED: Cannot search for secrets/credentials patterns"⟩,
        false) ∧
    (executeSearchText (fun _ => some "x") ⟨"hello", none, none, none, none, none⟩ "/ws").2 =
      true := by
  constructor
  · exact (executeSearchText_blocked_iff (fun _ => some "x")
      ⟨"token", none, none, none, none, none⟩ "/ws").1 (by decide)
  · exact ((executeSearchText_blocked_iff (fun _ => some "x")
      ⟨"hello", none, none, none, none, none⟩ "/ws").2 (by decide)).1
